import Mathlib

/-!
Verification development for the discharge-meeting conversation controller
(the `useDischargeMeeting` hook of the discharge-bot repository).

The controller is embedded shallowly: React state becomes an explicit
`MeetingState` record, each operation of the hook becomes a state-transition
function, and every external collaborator call (plan generation, reactive
reply, summarization, speech synthesis, availability upsert) is recorded as
an `Eff` entry in an effect log while its response is passed in as an
explicit parameter.  The asynchronous auto-advance chain of `playNextStep`
is modelled with an explicit fuel parameter.
-/

/-! ### String helpers mirroring the JavaScript string operations used -/

/-- `listStarts pat l` is true when `pat` is an initial segment of `l`. -/
def listStarts : List Char → List Char → Bool
  | [], _ => true
  | _ :: _, [] => false
  | a :: as, b :: bs => a == b && listStarts as bs

/-- `listOccurs pat l` is true when `pat` occurs contiguously inside `l`. -/
def listOccurs (pat : List Char) : List Char → Bool
  | [] => listStarts pat []
  | l@(_ :: rest) => listStarts pat l || listOccurs pat rest

/-- JavaScript `String.prototype.includes`. -/
def strIncludes (s pat : String) : Bool :=
  listOccurs pat.data s.data

/-- JavaScript `String.prototype.endsWith`. -/
def strEnds (s pat : String) : Bool :=
  listStarts pat.data.reverse s.data.reverse

/-- JavaScript `s.replace(/\?+$/, '')`: drop every trailing question mark. -/
def dropTrailingQ (s : String) : String :=
  String.mk ((s.data.reverse.dropWhile (fun ch => ch == '?')).reverse)

/-- ASCII lowering of one character, as `toLowerCase` acts on the
ASCII keywords the extractor tests for. -/
def lowerChar (c : Char) : Char :=
  if 'A' ≤ c ∧ c ≤ 'Z' then Char.ofNat (c.toNat + 32) else c

/-- JavaScript `String.prototype.toLowerCase` (ASCII fragment). -/
def jsToLower (s : String) : String :=
  String.mk (s.data.map lowerChar)

/-- Whitespace characters relevant to `String.prototype.trim`. -/
def isWS (c : Char) : Bool :=
  c == ' ' || c == '\t' || c == '\n' || c == '\r'

/-- JavaScript `String.prototype.trim`. -/
def jsTrim (s : String) : String :=
  String.mk (((s.data.dropWhile isWS).reverse.dropWhile isWS).reverse)

/-! ### Data model (src/unnamed/part_001, lines 6-23) -/

inductive Speaker where
  | patient
  | bot
  | system
deriving DecidableEq, Repr

/-- `ConversationMessage` without the generated `id`/`timestamp` fields,
which no control flow of the hook inspects. -/
structure Msg where
  speaker : Speaker
  content : String
  questionId : Option String
deriving DecidableEq, Repr

inductive QCategory where
  | teachBack
  | medication
  | followUp
  | other
deriving DecidableEq, Repr

structure DischargeQuestion where
  id : String
  question : String
  category : QCategory
  answered : Bool
  answer : Option String
deriving DecidableEq, Repr

inductive MeetingStatus where
  | notStarted
  | inProgress
  | completed
deriving DecidableEq, Repr

/-- One step of the generated conversation plan (`planResponse.plan`). -/
structure PlanStep where
  content : String
  step_type : Option String
  question_id : Option String
deriving DecidableEq, Repr

/-- External calls issued by the controller, recorded in order. -/
inductive Eff where
  | planCall (patientId : String)
  | reactCall (transcript : List Msg) (lastPatientMessage : String)
  | speak (text : String)
  | availabilityUpsert (patientId : String) (key : String) (text : String)
  | summarizeCall (patientId : String) (transcript : List Msg)
      (questions : List DischargeQuestion)
deriving DecidableEq, Repr

/-- The hook's state: React `useState` values plus the mirroring refs
(`isSpeakingRef`, `patientIdRef`, `isAdvancing`), and the effect log. -/
structure MeetingState where
  status : MeetingStatus
  questions : List DischargeQuestion
  conversation : List Msg
  summary : String
  extractedAnswers : List (String × String)
  planSteps : List PlanStep
  currentStepIndex : Int
  waitingForAnswer : Bool
  isSpeaking : Bool
  isAdvancing : Bool
  patientId : Option String
  effects : List Eff
deriving DecidableEq, Repr

/-- Response of the `/meeting/react` collaborator. -/
structure ReactResp where
  reply : String
  follow_up_needed : Bool
deriving DecidableEq, Repr

/-! ### Small state combinators -/

def appendMsg (st : MeetingState) (m : Msg) : MeetingState :=
  { st with conversation := st.conversation ++ [m] }

def pushEff (st : MeetingState) (e : Eff) : MeetingState :=
  { st with effects := st.effects ++ [e] }

/-- JavaScript truthiness of an optional string (`null`/`''` are falsy). -/
def optTruthy : Option String → Bool
  | none => false
  | some s => decide (¬ s = "")

/-! ### The extracted-answers map, modelled as an association list with
JavaScript-object update semantics -/

def lookupEA : List (String × String) → String → Option String
  | [], _ => none
  | (k0, v0) :: rest, k => if k0 = k then some v0 else lookupEA rest k

/-- `newAnswers[k] = v`: replace the binding if present, else append. -/
def setEA : List (String × String) → String → String → List (String × String)
  | [], k, v => [(k, v)]
  | (k0, v0) :: rest, k, v =>
    if k0 = k then (k, v) :: rest else (k0, v0) :: setEA rest k v

/-- JavaScript truthiness of `newAnswers[k]` (missing or `''` is falsy). -/
def eaTruthy (ea : List (String × String)) (k : String) : Bool :=
  match lookupEA ea k with
  | none => false
  | some v => decide (¬ v = "")

/-! ### Answer Extractor (src/unnamed/part_001, lines 340-382) -/

/-- The candidate window: `conversation.filter(bot && questionId).slice(-3)`. -/
def candidateMsgs (conv : List Msg) : List Msg :=
  let botQ := conv.filter (fun m => decide (m.speaker = Speaker.bot) && optTruthy m.questionId)
  botQ.drop (botQ.length - 3)

/-- The keyword/length heuristic of lines 355-361: the lowercase utterance
contains one of the six fixed keywords, or its length exceeds 20. -/
def acceptsHeuristic (r : String) : Bool :=
  strIncludes (jsToLower r) "yes" || strIncludes (jsToLower r) "no" ||
  strIncludes (jsToLower r) "tuesday" || strIncludes (jsToLower r) "wednesday" ||
  strIncludes (jsToLower r) "morning" || strIncludes (jsToLower r) "afternoon" ||
  decide (r.length > 20)

def availabilityKey : String := "__availability__"

/-- Processing of one candidate bot message inside the extraction loop. -/
def extractStep (qs : List DischargeQuestion) (pid : Option String) (r : String)
    (acc : List (String × String) × List Eff) (m : Msg) :
    List (String × String) × List Eff :=
  match m.questionId with
  | none => acc
  | some qid =>
    if qid = "" then acc
    else if eaTruthy acc.fst qid then acc
    else if acceptsHeuristic r then
      let effs :=
        match qs.find? (fun q => decide (q.id = qid)) with
        | some q =>
          match pid with
          | some p =>
            if q.category = QCategory.followUp ∧ ¬ p = "" then
              acc.snd ++ [Eff.availabilityUpsert p availabilityKey r]
            else acc.snd
          | none => acc.snd
        | none => acc.snd
      (setEA acc.fst qid r, effs)
    else acc

/-- `extractAnswersFromLatestResponse`.  Reads the transcript and answer map
as captured at call time (the hook's closures), returns the new answer map
together with the extended effect log. -/
def extractAnswersFromLatestResponse (conv : List Msg) (qs : List DischargeQuestion)
    (ea : List (String × String)) (pid : Option String) (effs : List Eff)
    (r : String) : List (String × String) × List Eff :=
  (candidateMsgs conv).foldl (extractStep qs pid r) (ea, effs)

/-! ### Conversation Plan Runner (src/unnamed/part_001, lines 299-338) -/

/-- `stepRequiresAnswer` (lines 300-306): explicit `step_type === 'question'`,
falling back to the trailing-question-mark heuristic. -/
def stepRequiresAnswer : Option PlanStep → Bool
  | none => false
  | some step =>
    decide (step.step_type = some "question") || strEnds (jsTrim step.content) "?"

/-- `planSteps[i]` with JavaScript out-of-range access as `none`. -/
def getStep (l : List PlanStep) (i : Int) : Option PlanStep :=
  if i < 0 then none else l.get? i.toNat

/-- The shared step-emission block (set the cursor, pre-mark `waitingForAnswer`
for question steps, append the bot transcript message, play its speech), as
performed at lines 232-243, 317-329 and 143-157. -/
def stepEmit (st : MeetingState) (step : PlanStep) : MeetingState :=
  { st with
    currentStepIndex := st.currentStepIndex + 1,
    waitingForAnswer := if stepRequiresAnswer (some step) then true else st.waitingForAnswer,
    conversation := st.conversation ++ [Msg.mk Speaker.bot step.content step.question_id],
    effects := st.effects ++ [Eff.speak step.content] }

/-- `playNextStep` (lines 309-338).  The trailing `setTimeout` auto-advance
recursion is bounded by `fuel`. -/
def playNextStep : MeetingState → Nat → MeetingState
  | st, 0 => st
  | st, fuel + 1 =>
    if st.isAdvancing then st
    else if st.waitingForAnswer then st
    else if (st.planSteps.length : Int) ≤ st.currentStepIndex + 1 then st
    else
      match getStep st.planSteps (st.currentStepIndex + 1) with
      | none => st
      | some step =>
        if stepRequiresAnswer (some step) then stepEmit st step
        else playNextStep (stepEmit st step) fuel

/-- The deferred advancement body of lines 227-248 (the `setTimeout` callback
run after a patient reply has been acknowledged). -/
def advanceAfterReply (st : MeetingState) (fuel : Nat) : MeetingState :=
  if (st.planSteps.length : Int) ≤ st.currentStepIndex + 1 then st
  else
    match getStep st.planSteps (st.currentStepIndex + 1) with
    | none => st
    | some step =>
      if stepRequiresAnswer (some step) then stepEmit st step
      else playNextStep (stepEmit st step) fuel

/-! ### addConversationMessage (src/unnamed/part_001, lines 172-251) -/

/-- `addConversationMessage`.  `react` is the `/meeting/react` collaborator's
response (`none` covers both a thrown fetch and a non-ok response). -/
def addConversationMessage (st0 : MeetingState) (speaker : Speaker) (content : String)
    (questionId : Option String) (react : Option ReactResp) (fuel : Nat) : MeetingState :=
  let st := appendMsg st0 (Msg.mk speaker content questionId)
  if speaker = Speaker.patient ∧ st0.status = MeetingStatus.inProgress then
    if st0.isSpeaking then st
    else
      let res := extractAnswersFromLatestResponse st0.conversation st0.questions
        st0.extractedAnswers st0.patientId st.effects content
      let st := { st with extractedAnswers := res.fst, effects := res.snd }
      if st0.waitingForAnswer = false then st
      else
        let st := pushEff st (Eff.reactCall st0.conversation content)
        match react with
        | none => advanceAfterReply { st with waitingForAnswer := false } fuel
        | some resp =>
          let t0 := jsTrim resp.reply
          let reactiveText :=
            if resp.follow_up_needed = false ∧ strEnds t0 "?" = true then
              jsTrim (dropTrailingQ t0) ++ "."
            else t0
          let st := pushEff (appendMsg st (Msg.mk Speaker.bot reactiveText none))
            (Eff.speak reactiveText)
          if resp.follow_up_needed then st
          else advanceAfterReply { st with waitingForAnswer := false } fuel
  else st

/-- The reactive reply text as emitted on the `follow_up_needed = false` path
(lines 206-209): trim, and if it ends in question marks, strip them and
append a period. -/
def reactiveTextOf (reply : String) : String :=
  let t := jsTrim reply
  if strEnds t "?" then jsTrim (dropTrailingQ t) ++ "." else t

/-! ### startMeeting (src/unnamed/part_001, lines 100-170) -/

def genPlanMsg : String :=
  "Generating conversation plan based on patient data and discharge summary..."

def planOkMsg (n : Nat) : String :=
  "Conversation plan generated successfully. Starting meeting with " ++ toString n ++
    " conversation steps..."

/-- `startMeeting`.  `planOutcome` is the plan collaborator's response; an
`error` value carries the error text interpolated into the system message. -/
def startMeeting (st0 : MeetingState) (patientId : String)
    (planOutcome : Except String (List PlanStep)) (fuel : Nat) : MeetingState :=
  let st := { st0 with patientId := some patientId, status := MeetingStatus.inProgress }
  let st := appendMsg st (Msg.mk Speaker.system genPlanMsg none)
  let st := pushEff st (Eff.planCall patientId)
  match planOutcome with
  | Except.error e =>
    { appendMsg st (Msg.mk Speaker.system
        ("Error generating plan: " ++ e ++ ". Please try again or contact support.") none)
      with status := MeetingStatus.notStarted }
  | Except.ok plan =>
    let st := { st with conversation := [] }
    let st := appendMsg st (Msg.mk Speaker.system (planOkMsg plan.length) none)
    let st := { st with planSteps := plan, currentStepIndex := -1, waitingForAnswer := false }
    match plan with
    | [] => st
    | step0 :: _ =>
      if stepRequiresAnswer (some step0) then stepEmit st step0
      else playNextStep (stepEmit st step0) fuel

/-! ### completeMeeting (src/unnamed/part_001, lines 384-425) -/

def concludeMsg : String :=
  "Meeting has concluded. Generating summary and extracting answers..."

def summaryOkMsg : String :=
  "Summary generated successfully. Meeting analysis complete."

/-- `completeMeeting`.  `outcome` is the summarization collaborator's
response: on success a `(summary, extracted_answers)` pair.  The request
payload carries the transcript as captured at entry (the hook's closure). -/
def completeMeeting (st0 : MeetingState) (patientId : String)
    (outcome : Except String (String × List (String × String))) : MeetingState :=
  let st := { st0 with status := MeetingStatus.completed }
  let st := appendMsg st (Msg.mk Speaker.system concludeMsg none)
  let st := pushEff st (Eff.summarizeCall patientId st0.conversation st0.questions)
  match outcome with
  | Except.error e =>
    appendMsg st (Msg.mk Speaker.system ("Error generating summary: " ++ e) none)
  | Except.ok so =>
    let st := { st with summary := so.fst, extractedAnswers := so.snd }
    appendMsg st (Msg.mk Speaker.system summaryOkMsg none)

/-! ### Basic lemmas about the string helpers -/

theorem data_append (s t : String) : (s ++ t).data = s.data ++ t.data := by
  cases s; cases t; rfl

theorem acceptsHeuristic_empty : acceptsHeuristic "" = false := by decide

theorem ne_empty_of_accepts {r : String} (h : acceptsHeuristic r = true) : ¬ r = "" := by
  intro he
  rw [he, acceptsHeuristic_empty] at h
  cases h

/-- Appending a period yields a string that does not end with a question
mark. -/
theorem strEnds_dot_q (s : String) : strEnds (s ++ ".") "?" = false := by
  unfold strEnds
  rw [data_append, List.reverse_append]
  rfl

/-- The reactive-reply text emitted on the `follow_up_needed = false` path
never ends with a question mark. -/
theorem reactiveTextOf_no_trailing_q (r : String) : strEnds (reactiveTextOf r) "?" = false := by
  unfold reactiveTextOf
  cases h : strEnds (jsTrim r) "?" with
  | false => simp [h]
  | true =>
    simp only [h, if_true]
    exact strEnds_dot_q _

/-! ### Lemmas about the association-list answer map -/

theorem lookupEA_setEA_self (ea : List (String × String)) (k v : String) :
    lookupEA (setEA ea k v) k = some v := by
  induction ea with
  | nil => simp [setEA, lookupEA]
  | cons p rest ih =>
    obtain ⟨k0, v0⟩ := p
    by_cases h : k0 = k
    · simp [setEA, h, lookupEA]
    · simp [setEA, h, lookupEA, ih]

theorem lookupEA_setEA_ne (ea : List (String × String)) {k k' : String} (v : String)
    (h : ¬ k' = k) : lookupEA (setEA ea k v) k' = lookupEA ea k' := by
  have h2 : ¬ k = k' := fun hh => h hh.symm
  induction ea with
  | nil => simp [setEA, lookupEA, h2]
  | cons p rest ih =>
    obtain ⟨k0, v0⟩ := p
    by_cases h0 : k0 = k
    · subst h0
      simp [setEA, lookupEA, h2]
    · simp [setEA, h0, lookupEA, ih]

theorem eaTruthy_eq_false_of_none {ea : List (String × String)} {k : String}
    (h : lookupEA ea k = none) : eaTruthy ea k = false := by
  unfold eaTruthy
  rw [h]

theorem eaTruthy_eq_true_of_some {ea : List (String × String)} {k v : String}
    (h : lookupEA ea k = some v) (hv : ¬ v = "") : eaTruthy ea k = true := by
  unfold eaTruthy
  rw [h]
  simpa using hv

/-! ### Lemmas about the Answer Extractor loop -/

theorem eaTruthy_congr {ea ea' : List (String × String)} {k : String}
    (h : lookupEA ea k = lookupEA ea' k) : eaTruthy ea k = eaTruthy ea' k := by
  unfold eaTruthy
  rw [h]

theorem extractStep_preserves (qs : List DischargeQuestion) (pid : Option String)
    (r : String) (acc : List (String × String) × List Eff) (m : Msg) (q v : String)
    (h : lookupEA acc.fst q = some v) (hv : ¬ v = "") :
    lookupEA (extractStep qs pid r acc m).fst q = some v := by
  unfold extractStep
  split
  · exact h
  next qid heq =>
    by_cases h0 : qid = ""
    · rw [if_pos h0]
      exact h
    · rw [if_neg h0]
      cases h1 : eaTruthy acc.fst qid with
      | true =>
        rw [if_pos rfl]
        exact h
      | false =>
        rw [if_neg Bool.false_ne_true]
        cases h2 : acceptsHeuristic r with
        | false =>
          rw [if_neg Bool.false_ne_true]
          exact h
        | true =>
          rw [if_pos rfl]
          show lookupEA (setEA acc.fst qid r) q = some v
          have hq : ¬ q = qid := by
            intro hqq
            have ht := eaTruthy_eq_true_of_some (hqq ▸ h) hv
            rw [h1] at ht
            cases ht
          rw [lookupEA_setEA_ne acc.fst r hq]
          exact h

theorem extractLoop_preserves (qs : List DischargeQuestion) (pid : Option String)
    (r : String) (cands : List Msg) :
    ∀ acc q v, lookupEA acc.fst q = some v → ¬ v = "" →
      lookupEA (cands.foldl (extractStep qs pid r) acc).fst q = some v := by
  induction cands with
  | nil => intro acc q v h _; exact h
  | cons m t ih =>
    intro acc q v h hv
    exact ih _ q v (extractStep_preserves qs pid r acc m q v h hv) hv

theorem extractStep_noaccept (qs : List DischargeQuestion) (pid : Option String)
    (r : String) (acc : List (String × String) × List Eff) (m : Msg)
    (h : acceptsHeuristic r = false) : extractStep qs pid r acc m = acc := by
  unfold extractStep
  split
  · rfl
  next qid heq =>
    by_cases h0 : qid = ""
    · rw [if_pos h0]
    · rw [if_neg h0]
      cases h1 : eaTruthy acc.fst qid with
      | true => rw [if_pos rfl]
      | false =>
        rw [if_neg Bool.false_ne_true, h, if_neg Bool.false_ne_true]

theorem extractLoop_noaccept (qs : List DischargeQuestion) (pid : Option String)
    (r : String) (cands : List Msg) (acc : List (String × String) × List Eff)
    (h : acceptsHeuristic r = false) :
    cands.foldl (extractStep qs pid r) acc = acc := by
  induction cands generalizing acc with
  | nil => rfl
  | cons m t ih =>
    rw [List.foldl_cons, extractStep_noaccept qs pid r acc m h, ih]

/-- One extraction step either leaves the map unchanged at `q`, or has just
written the utterance `r` there (which only happens for a candidate whose
`questionId` is `q` and an accepted utterance). -/
theorem extractStep_lookup (qs : List DischargeQuestion) (pid : Option String)
    (r : String) (acc : List (String × String) × List Eff) (m : Msg) (q : String) :
    lookupEA (extractStep qs pid r acc m).fst q = lookupEA acc.fst q ∨
    (lookupEA (extractStep qs pid r acc m).fst q = some r ∧ acceptsHeuristic r = true ∧
      m.questionId = some q) := by
  unfold extractStep
  split
  · exact Or.inl rfl
  next qid heq =>
    by_cases h0 : qid = ""
    · rw [if_pos h0]
      exact Or.inl rfl
    · rw [if_neg h0]
      cases h1 : eaTruthy acc.fst qid with
      | true =>
        rw [if_pos rfl]
        exact Or.inl rfl
      | false =>
        rw [if_neg Bool.false_ne_true]
        cases h2 : acceptsHeuristic r with
        | false =>
          rw [if_neg Bool.false_ne_true]
          exact Or.inl rfl
        | true =>
          rw [if_pos rfl]
          by_cases hq : q = qid
          · subst hq
            exact Or.inr ⟨lookupEA_setEA_self _ _ _, rfl, heq⟩
          · exact Or.inl (lookupEA_setEA_ne acc.fst r hq)

/-- A step given a pending candidate for `q` and an accepted utterance
records the utterance under `q`. -/
theorem extractStep_writes (qs : List DischargeQuestion) (pid : Option String)
    (r : String) (acc : List (String × String) × List Eff) (m : Msg) (q : String)
    (hq : m.questionId = some q) (hq0 : ¬ q = "") (ht : eaTruthy acc.fst q = false)
    (ha : acceptsHeuristic r = true) :
    lookupEA (extractStep qs pid r acc m).fst q = some r := by
  unfold extractStep
  split
  · next heq => rw [hq] at heq; cases heq
  next qid heq =>
    rw [hq] at heq
    cases heq
    rw [if_neg hq0, ht, if_neg Bool.false_ne_true, ha, if_pos rfl]
    exact lookupEA_setEA_self _ _ _

theorem extractLoop_fresh (qs : List DischargeQuestion) (pid : Option String)
    (r : String) (cands : List Msg) :
    ∀ acc q w, lookupEA acc.fst q = none →
      lookupEA (cands.foldl (extractStep qs pid r) acc).fst q = some w →
      w = r ∧ acceptsHeuristic r = true := by
  induction cands with
  | nil =>
    intro acc q w h0 h1
    rw [List.foldl_nil, h0] at h1
    cases h1
  | cons m t ih =>
    intro acc q w h0 h1
    rw [List.foldl_cons] at h1
    rcases extractStep_lookup qs pid r acc m q with heq | ⟨hw, ha, _⟩
    · exact ih _ q w (heq.trans h0) h1
    · have hp := extractLoop_preserves qs pid r t _ q r hw (ne_empty_of_accepts ha)
      rw [hp] at h1
      cases h1
      exact ⟨rfl, ha⟩

theorem extractLoop_nowrite (qs : List DischargeQuestion) (pid : Option String)
    (r : String) (cands : List Msg) :
    ∀ acc q, (∀ m ∈ cands, ¬ m.questionId = some q) →
      lookupEA (cands.foldl (extractStep qs pid r) acc).fst q = lookupEA acc.fst q := by
  induction cands with
  | nil => intro acc q _; rfl
  | cons m t ih =>
    intro acc q h
    rcases extractStep_lookup qs pid r acc m q with heq | ⟨_, _, hqid⟩
    · rw [List.foldl_cons, ih _ q (fun m' hm' => h m' (List.mem_cons_of_mem m hm')), heq]
    · exact absurd hqid (h m (List.mem_cons_self m t))

theorem extractLoop_writes (qs : List DischargeQuestion) (pid : Option String)
    (r : String) (cands : List Msg) :
    ∀ acc q m, m ∈ cands → m.questionId = some q → ¬ q = "" →
      eaTruthy acc.fst q = false → acceptsHeuristic r = true →
      lookupEA (cands.foldl (extractStep qs pid r) acc).fst q = some r := by
  induction cands with
  | nil => intro acc q m hm; cases hm
  | cons m0 t ih =>
    intro acc q m hm hq hq0 ht ha
    rw [List.foldl_cons]
    rcases List.mem_cons.mp hm with rfl | hmt
    · have hw := extractStep_writes qs pid r acc m q hq hq0 ht ha
      exact extractLoop_preserves qs pid r t _ q r hw (ne_empty_of_accepts ha)
    · rcases extractStep_lookup qs pid r acc m0 q with heq | ⟨hw, _, _⟩
      · exact ih _ q m hmt hq hq0 ((eaTruthy_congr heq).trans ht) ha
      · exact extractLoop_preserves qs pid r t _ q r hw (ne_empty_of_accepts ha)

theorem extractStep_effects_mem (qs : List DischargeQuestion) (pid : Option String)
    (r : String) (acc : List (String × String) × List Eff) (m : Msg) (e : Eff)
    (h : e ∈ acc.snd) : e ∈ (extractStep qs pid r acc m).snd := by
  unfold extractStep
  split
  · exact h
  next qid heq =>
    by_cases h0 : qid = ""
    · rw [if_pos h0]
      exact h
    · rw [if_neg h0]
      cases h1 : eaTruthy acc.fst qid with
      | true =>
        rw [if_pos rfl]
        exact h
      | false =>
        rw [if_neg Bool.false_ne_true]
        cases h2 : acceptsHeuristic r with
        | false =>
          rw [if_neg Bool.false_ne_true]
          exact h
        | true =>
          rw [if_pos rfl]
          show e ∈ (setEA acc.fst qid r,
            match qs.find? (fun q => decide (q.id = qid)) with
            | some q =>
              match pid with
              | some p =>
                if q.category = QCategory.followUp ∧ ¬ p = "" then
                  acc.snd ++ [Eff.availabilityUpsert p availabilityKey r]
                else acc.snd
              | none => acc.snd
            | none => acc.snd).snd
          cases hf : qs.find? (fun q => decide (q.id = qid)) with
          | none => exact h
          | some qrec =>
            cases pid with
            | none => exact h
            | some p =>
              show e ∈ (if qrec.category = QCategory.followUp ∧ ¬ p = "" then
                  acc.snd ++ [Eff.availabilityUpsert p availabilityKey r]
                else acc.snd)
              by_cases hc : qrec.category = QCategory.followUp ∧ ¬ p = ""
              · rw [if_pos hc]
                exact List.mem_append_left _ h
              · rw [if_neg hc]
                exact h

theorem extractLoop_effects_mem (qs : List DischargeQuestion) (pid : Option String)
    (r : String) (cands : List Msg) :
    ∀ acc e, e ∈ acc.snd → e ∈ (cands.foldl (extractStep qs pid r) acc).snd := by
  induction cands with
  | nil => intro acc e h; exact h
  | cons m t ih =>
    intro acc e h
    exact ih _ e (extractStep_effects_mem qs pid r acc m e h)

/-- A step given a pending candidate for a `follow-up` question and an
accepted utterance emits the availability upsert. -/
theorem extractStep_upsert (qs : List DischargeQuestion) (pid : Option String)
    (r : String) (acc : List (String × String) × List Eff) (m : Msg) (q : String)
    (qrec : DischargeQuestion) (p : String)
    (hq : m.questionId = some q) (hq0 : ¬ q = "") (ht : eaTruthy acc.fst q = false)
    (ha : acceptsHeuristic r = true)
    (hfind : qs.find? (fun x => decide (x.id = q)) = some qrec)
    (hcat : qrec.category = QCategory.followUp)
    (hpid : pid = some p) (hp : ¬ p = "") :
    Eff.availabilityUpsert p availabilityKey r ∈ (extractStep qs pid r acc m).snd := by
  unfold extractStep
  split
  · next heq => rw [hq] at heq; cases heq
  next qid heq =>
    rw [hq] at heq
    cases heq
    rw [if_neg hq0, ht, if_neg Bool.false_ne_true, ha, if_pos rfl]
    show Eff.availabilityUpsert p availabilityKey r ∈ (setEA acc.fst q r,
      match qs.find? (fun x => decide (x.id = q)) with
      | some qr =>
        match pid with
        | some p' =>
          if qr.category = QCategory.followUp ∧ ¬ p' = "" then
            acc.snd ++ [Eff.availabilityUpsert p' availabilityKey r]
          else acc.snd
        | none => acc.snd
      | none => acc.snd).snd
    rw [hfind, hpid]
    show Eff.availabilityUpsert p availabilityKey r ∈
      (if qrec.category = QCategory.followUp ∧ ¬ p = "" then
          acc.snd ++ [Eff.availabilityUpsert p availabilityKey r]
        else acc.snd)
    rw [if_pos ⟨hcat, hp⟩]
    exact List.mem_append_right _ (List.mem_singleton_self _)

theorem extractLoop_upsert (qs : List DischargeQuestion) (pid : Option String)
    (r : String) (cands : List Msg) :
    ∀ acc q m qrec p, m ∈ cands → m.questionId = some q → ¬ q = "" →
      eaTruthy acc.fst q = false → acceptsHeuristic r = true →
      qs.find? (fun x => decide (x.id = q)) = some qrec →
      qrec.category = QCategory.followUp → pid = some p → ¬ p = "" →
      Eff.availabilityUpsert p availabilityKey r ∈
        (cands.foldl (extractStep qs pid r) acc).snd := by
  induction cands with
  | nil => intro acc q m qrec p hm; cases hm
  | cons m0 t ih =>
    intro acc q m qrec p hm hq hq0 ht ha hfind hcat hpid hp
    rw [List.foldl_cons]
    rcases List.mem_cons.mp hm with rfl | hmt
    · have he := extractStep_upsert qs pid r acc m q qrec p hq hq0 ht ha hfind hcat hpid hp
      exact extractLoop_effects_mem qs pid r t _ _ he
    · rcases extractStep_lookup qs pid r acc m0 q with heq | ⟨_, _, hqid0⟩
      · exact ih _ q m qrec p hmt hq hq0 ((eaTruthy_congr heq).trans ht) ha hfind hcat hpid hp
      · have he := extractStep_upsert qs pid r acc m0 q qrec p hqid0 hq0 ht ha hfind hcat hpid hp
        exact extractLoop_effects_mem qs pid r t _ _ he

/-- Members of the candidate window are bot messages with a truthy
`questionId`. -/
theorem mem_candidateMsgs {conv : List Msg} {m : Msg} (h : m ∈ candidateMsgs conv) :
    m.speaker = Speaker.bot ∧ optTruthy m.questionId = true := by
  unfold candidateMsgs at h
  have h2 := List.drop_subset _ _ h
  have h3 := List.mem_filter.mp h2
  have h4 := h3.2
  rw [Bool.and_eq_true] at h4
  exact ⟨of_decide_eq_true h4.1, h4.2⟩

theorem qid_ne_empty_of_candidate {conv : List Msg} {m : Msg} {q : String}
    (h : m ∈ candidateMsgs conv) (hq : m.questionId = some q) : ¬ q = "" := by
  have h2 := (mem_candidateMsgs h).2
  rw [hq] at h2
  exact of_decide_eq_true h2

/-! ### Lemmas about the Plan Runner -/

theorem getStep_bounds {l : List PlanStep} {i : Int} {s : PlanStep}
    (h : getStep l i = some s) : 0 ≤ i ∧ i < (l.length : Int) := by
  unfold getStep at h
  by_cases h0 : i < 0
  · rw [if_pos h0] at h
    cases h
  · rw [if_neg h0] at h
    have h1 : i.toNat < l.length := by
      by_contra hc
      rw [List.get?_len_le (Nat.le_of_not_lt hc)] at h
      cases h
    omega

theorem playNextStep_oob (st : MeetingState) (fuel : Nat)
    (h : (st.planSteps.length : Int) ≤ st.currentStepIndex + 1) :
    playNextStep st fuel = st := by
  cases fuel with
  | zero => rfl
  | succ n =>
    unfold playNextStep
    cases hA : st.isAdvancing with
    | true => rw [if_pos rfl]
    | false =>
      rw [if_neg Bool.false_ne_true]
      cases hW : st.waitingForAnswer with
      | true => rw [if_pos rfl]
      | false =>
        rw [if_neg Bool.false_ne_true, if_pos h]

theorem advanceAfterReply_oob (st : MeetingState) (fuel : Nat)
    (h : (st.planSteps.length : Int) ≤ st.currentStepIndex + 1) :
    advanceAfterReply st fuel = st := by
  unfold advanceAfterReply
  rw [if_pos h]

theorem playNextStep_status (fuel : Nat) :
    ∀ st : MeetingState, (playNextStep st fuel).status = st.status := by
  induction fuel with
  | zero => intro st; rfl
  | succ n ih =>
    intro st
    unfold playNextStep
    cases hA : st.isAdvancing with
    | true => rw [if_pos rfl]
    | false =>
      rw [if_neg Bool.false_ne_true]
      cases hW : st.waitingForAnswer with
      | true => rw [if_pos rfl]
      | false =>
        rw [if_neg Bool.false_ne_true]
        by_cases hb : (st.planSteps.length : Int) ≤ st.currentStepIndex + 1
        · rw [if_pos hb]
        · rw [if_neg hb]
          cases hg : getStep st.planSteps (st.currentStepIndex + 1) with
          | none => rfl
          | some step =>
            show (if stepRequiresAnswer (some step) = true then stepEmit st step
              else playNextStep (stepEmit st step) n).status = st.status
            by_cases hr : stepRequiresAnswer (some step) = true
            · rw [if_pos hr]
              rfl
            · rw [if_neg hr, ih]
              rfl

theorem advanceAfterReply_status (st : MeetingState) (fuel : Nat) :
    (advanceAfterReply st fuel).status = st.status := by
  unfold advanceAfterReply
  by_cases hb : (st.planSteps.length : Int) ≤ st.currentStepIndex + 1
  · rw [if_pos hb]
  · rw [if_neg hb]
    cases hg : getStep st.planSteps (st.currentStepIndex + 1) with
    | none => rfl
    | some step =>
      show (if stepRequiresAnswer (some step) = true then stepEmit st step
        else playNextStep (stepEmit st step) fuel).status = st.status
      by_cases hr : stepRequiresAnswer (some step) = true
      · rw [if_pos hr]
        rfl
      · rw [if_neg hr, playNextStep_status]
        rfl

theorem playNextStep_conv (fuel : Nat) :
    ∀ st : MeetingState, ∃ t, (playNextStep st fuel).conversation = st.conversation ++ t := by
  induction fuel with
  | zero => intro st; exact ⟨[], (List.append_nil _).symm⟩
  | succ n ih =>
    intro st
    unfold playNextStep
    cases hA : st.isAdvancing with
    | true =>
      rw [if_pos rfl]
      exact ⟨[], (List.append_nil _).symm⟩
    | false =>
      rw [if_neg Bool.false_ne_true]
      cases hW : st.waitingForAnswer with
      | true =>
        rw [if_pos rfl]
        exact ⟨[], (List.append_nil _).symm⟩
      | false =>
        rw [if_neg Bool.false_ne_true]
        by_cases hb : (st.planSteps.length : Int) ≤ st.currentStepIndex + 1
        · rw [if_pos hb]
          exact ⟨[], (List.append_nil _).symm⟩
        · rw [if_neg hb]
          cases hg : getStep st.planSteps (st.currentStepIndex + 1) with
          | none => exact ⟨[], (List.append_nil _).symm⟩
          | some step =>
            show ∃ t, (if stepRequiresAnswer (some step) = true then stepEmit st step
              else playNextStep (stepEmit st step) n).conversation = st.conversation ++ t
            by_cases hr : stepRequiresAnswer (some step) = true
            · rw [if_pos hr]
              exact ⟨[Msg.mk Speaker.bot step.content step.question_id], rfl⟩
            · rw [if_neg hr]
              obtain ⟨t, ht⟩ := ih (stepEmit st step)
              refine ⟨[Msg.mk Speaker.bot step.content step.question_id] ++ t, ?_⟩
              rw [ht]
              show (st.conversation ++ [Msg.mk Speaker.bot step.content step.question_id]) ++ t = _
              rw [List.append_assoc]

theorem advanceAfterReply_conv (st : MeetingState) (fuel : Nat) :
    ∃ t, (advanceAfterReply st fuel).conversation = st.conversation ++ t := by
  unfold advanceAfterReply
  by_cases hb : (st.planSteps.length : Int) ≤ st.currentStepIndex + 1
  · rw [if_pos hb]
    exact ⟨[], (List.append_nil _).symm⟩
  · rw [if_neg hb]
    cases hg : getStep st.planSteps (st.currentStepIndex + 1) with
    | none => exact ⟨[], (List.append_nil _).symm⟩
    | some step =>
      show ∃ t, (if stepRequiresAnswer (some step) = true then stepEmit st step
        else playNextStep (stepEmit st step) fuel).conversation = st.conversation ++ t
      by_cases hr : stepRequiresAnswer (some step) = true
      · rw [if_pos hr]
        exact ⟨[Msg.mk Speaker.bot step.content step.question_id], rfl⟩
      · rw [if_neg hr]
        obtain ⟨t, ht⟩ := playNextStep_conv fuel (stepEmit st step)
        refine ⟨[Msg.mk Speaker.bot step.content step.question_id] ++ t, ?_⟩
        rw [ht]
        show (st.conversation ++ [Msg.mk Speaker.bot step.content step.question_id]) ++ t = _
        rw [List.append_assoc]

/-! ### Evaluation lemmas for addConversationMessage -/

/-- The state after a patient message was appended and live extraction ran
(lines 172-185). -/
def extractedState (st : MeetingState) (c : String) (qid : Option String) : MeetingState :=
  { st with
    conversation := st.conversation ++ [Msg.mk Speaker.patient c qid],
    extractedAnswers := (extractAnswersFromLatestResponse st.conversation st.questions
      st.extractedAnswers st.patientId st.effects c).fst,
    effects := (extractAnswersFromLatestResponse st.conversation st.questions
      st.extractedAnswers st.patientId st.effects c).snd }

/-- The reactive reply text as computed at lines 206-209. -/
def reactText (resp : ReactResp) : String :=
  if resp.follow_up_needed = false ∧ strEnds (jsTrim resp.reply) "?" = true then
    jsTrim (dropTrailingQ (jsTrim resp.reply)) ++ "."
  else jsTrim resp.reply

/-- The state after the reactive-reply collaborator answered and its reply
was spoken (lines 191-212). -/
def reactedState (st : MeetingState) (c : String) (qid : Option String)
    (resp : ReactResp) : MeetingState :=
  { extractedState st c qid with
    conversation := (extractedState st c qid).conversation ++
      [Msg.mk Speaker.bot (reactText resp) none],
    effects := (extractedState st c qid).effects ++
      [Eff.reactCall st.conversation c, Eff.speak (reactText resp)] }

theorem reactText_true (r : String) : reactText (ReactResp.mk r true) = jsTrim r := by
  unfold reactText
  rw [if_neg]
  intro h
  cases h.1

theorem reactText_false (r : String) : reactText (ReactResp.mk r false) = reactiveTextOf r := by
  unfold reactText reactiveTextOf
  by_cases h : strEnds (jsTrim r) "?" = true
  · rw [if_pos ⟨rfl, h⟩, if_pos h]
  · rw [if_neg (fun hh => h hh.2), if_neg h]

/-- A message from a non-patient speaker, or one arriving outside an
in-progress meeting, is only appended. -/
theorem addMsg_other (st : MeetingState) (sp : Speaker) (c : String) (qid : Option String)
    (react : Option ReactResp) (fuel : Nat)
    (h : ¬ (sp = Speaker.patient ∧ st.status = MeetingStatus.inProgress)) :
    addConversationMessage st sp c qid react fuel = appendMsg st (Msg.mk sp c qid) := by
  simp only [addConversationMessage]
  rw [if_neg h]

/-- The speaking gate (lines 181-184): a patient message arriving while the
bot is speaking is appended and nothing else happens. -/
theorem addMsg_speaking (st : MeetingState) (c : String) (qid : Option String)
    (react : Option ReactResp) (fuel : Nat)
    (h1 : st.status = MeetingStatus.inProgress) (h2 : st.isSpeaking = true) :
    addConversationMessage st Speaker.patient c qid react fuel =
      appendMsg st (Msg.mk Speaker.patient c qid) := by
  simp [addConversationMessage, appendMsg, h1, h2]

/-- A patient message accepted while not waiting for an answer (lines
186-189): extraction runs, no reactive call, no advancement. -/
theorem addMsg_notWaiting (st : MeetingState) (c : String) (qid : Option String)
    (react : Option ReactResp) (fuel : Nat)
    (h1 : st.status = MeetingStatus.inProgress) (h2 : st.isSpeaking = false)
    (h3 : st.waitingForAnswer = false) :
    addConversationMessage st Speaker.patient c qid react fuel = extractedState st c qid := by
  simp [addConversationMessage, extractedState, appendMsg, h1, h2, h3]

/-- A failed reactive call (lines 203, 218): advancement proceeds anyway. -/
theorem addMsg_reactFail (st : MeetingState) (c : String) (qid : Option String) (fuel : Nat)
    (h1 : st.status = MeetingStatus.inProgress) (h2 : st.isSpeaking = false)
    (h3 : st.waitingForAnswer = true) :
    addConversationMessage st Speaker.patient c qid none fuel =
      advanceAfterReply { extractedState st c qid with
        effects := (extractedState st c qid).effects ++ [Eff.reactCall st.conversation c],
        waitingForAnswer := false } fuel := by
  simp [addConversationMessage, extractedState, appendMsg, pushEff, h1, h2, h3]

/-- A reactive reply with `follow_up_needed = true` (line 214): the bot
speaks the reply and stays on the current question. -/
theorem addMsg_followTrue (st : MeetingState) (c : String) (qid : Option String)
    (r : String) (fuel : Nat)
    (h1 : st.status = MeetingStatus.inProgress) (h2 : st.isSpeaking = false)
    (h3 : st.waitingForAnswer = true) :
    addConversationMessage st Speaker.patient c qid (some (ReactResp.mk r true)) fuel =
      reactedState st c qid (ReactResp.mk r true) := by
  simp [addConversationMessage, reactedState, extractedState, reactText, appendMsg, pushEff,
    h1, h2, h3, List.append_assoc]

/-- A reactive reply with `follow_up_needed = false` (lines 205-248): the
stripped reply is spoken, the waiting flag cleared, and advancement runs. -/
theorem addMsg_followFalse (st : MeetingState) (c : String) (qid : Option String)
    (r : String) (fuel : Nat)
    (h1 : st.status = MeetingStatus.inProgress) (h2 : st.isSpeaking = false)
    (h3 : st.waitingForAnswer = true) :
    addConversationMessage st Speaker.patient c qid (some (ReactResp.mk r false)) fuel =
      advanceAfterReply
        { reactedState st c qid (ReactResp.mk r false) with waitingForAnswer := false }
        fuel := by
  simp [addConversationMessage, reactedState, extractedState, reactText, appendMsg, pushEff,
    h1, h2, h3, List.append_assoc]

theorem conv_ext_trans {a b c : MeetingState}
    (h1 : ∃ t, b.conversation = a.conversation ++ t)
    (h2 : ∃ t, c.conversation = b.conversation ++ t) :
    ∃ t, c.conversation = a.conversation ++ t := by
  obtain ⟨t1, ht1⟩ := h1
  obtain ⟨t2, ht2⟩ := h2
  exact ⟨t1 ++ t2, by rw [ht2, ht1, List.append_assoc]⟩

theorem reactedState_conv (st : MeetingState) (c : String) (qid : Option String)
    (resp : ReactResp) :
    (reactedState st c qid resp).conversation =
      st.conversation ++ [Msg.mk Speaker.patient c qid,
        Msg.mk Speaker.bot (reactText resp) none] := by
  simp [reactedState, extractedState, List.append_assoc]

theorem addConversationMessage_status (st : MeetingState) (sp : Speaker) (c : String)
    (qid : Option String) (react : Option ReactResp) (fuel : Nat) :
    (addConversationMessage st sp c qid react fuel).status = st.status := by
  by_cases hc : sp = Speaker.patient ∧ st.status = MeetingStatus.inProgress
  · obtain ⟨hsp, hst⟩ := hc
    subst hsp
    cases hS : st.isSpeaking with
    | true =>
      rw [addMsg_speaking st c qid react fuel hst hS]
      rfl
    | false =>
      cases hW : st.waitingForAnswer with
      | false =>
        rw [addMsg_notWaiting st c qid react fuel hst hS hW]
        rfl
      | true =>
        cases react with
        | none =>
          rw [addMsg_reactFail st c qid fuel hst hS hW, advanceAfterReply_status]
          rfl
        | some resp =>
          obtain ⟨r, fu⟩ := resp
          cases fu with
          | true =>
            rw [addMsg_followTrue st c qid r fuel hst hS hW]
            rfl
          | false =>
            rw [addMsg_followFalse st c qid r fuel hst hS hW, advanceAfterReply_status]
            rfl
  · rw [addMsg_other st sp c qid react fuel hc]
    rfl

theorem addConversationMessage_conv (st : MeetingState) (sp : Speaker) (c : String)
    (qid : Option String) (react : Option ReactResp) (fuel : Nat) :
    ∃ t, (addConversationMessage st sp c qid react fuel).conversation =
      st.conversation ++ t := by
  by_cases hc : sp = Speaker.patient ∧ st.status = MeetingStatus.inProgress
  · obtain ⟨hsp, hst⟩ := hc
    subst hsp
    cases hS : st.isSpeaking with
    | true =>
      rw [addMsg_speaking st c qid react fuel hst hS]
      exact ⟨[Msg.mk Speaker.patient c qid], rfl⟩
    | false =>
      cases hW : st.waitingForAnswer with
      | false =>
        rw [addMsg_notWaiting st c qid react fuel hst hS hW]
        exact ⟨[Msg.mk Speaker.patient c qid], rfl⟩
      | true =>
        cases react with
        | none =>
          rw [addMsg_reactFail st c qid fuel hst hS hW]
          exact conv_ext_trans ⟨[Msg.mk Speaker.patient c qid], rfl⟩
            (advanceAfterReply_conv _ fuel)
        | some resp =>
          obtain ⟨r, fu⟩ := resp
          cases fu with
          | true =>
            rw [addMsg_followTrue st c qid r fuel hst hS hW]
            exact ⟨[Msg.mk Speaker.patient c qid,
              Msg.mk Speaker.bot (reactText (ReactResp.mk r true)) none],
              reactedState_conv st c qid (ReactResp.mk r true)⟩
          | false =>
            rw [addMsg_followFalse st c qid r fuel hst hS hW]
            exact conv_ext_trans
              ⟨[Msg.mk Speaker.patient c qid,
                Msg.mk Speaker.bot (reactText (ReactResp.mk r false)) none],
                reactedState_conv st c qid (ReactResp.mk r false)⟩
              (advanceAfterReply_conv _ fuel)
  · rw [addMsg_other st sp c qid react fuel hc]
    exact ⟨[Msg.mk sp c qid], rfl⟩

/-! ### Lemmas about completeMeeting and startMeeting -/

theorem completeMeeting_status (st : MeetingState) (pid : String)
    (out : Except String (String × List (String × String))) :
    (completeMeeting st pid out).status = MeetingStatus.completed := by
  unfold completeMeeting
  cases out with
  | error e => rfl
  | ok so => rfl

theorem completeMeeting_conv (st : MeetingState) (pid : String)
    (out : Except String (String × List (String × String))) :
    ∃ t, (completeMeeting st pid out).conversation = st.conversation ++ t := by
  unfold completeMeeting
  cases out with
  | error e =>
    exact ⟨[Msg.mk Speaker.system concludeMsg none,
      Msg.mk Speaker.system ("Error generating summary: " ++ e) none],
      by simp [appendMsg, pushEff, List.append_assoc]⟩
  | ok so =>
    exact ⟨[Msg.mk Speaker.system concludeMsg none, Msg.mk Speaker.system summaryOkMsg none],
      by simp [appendMsg, pushEff, List.append_assoc]⟩

theorem completeMeeting_effects (st : MeetingState) (pid : String)
    (out : Except String (String × List (String × String))) :
    (completeMeeting st pid out).effects =
      st.effects ++ [Eff.summarizeCall pid st.conversation st.questions] := by
  unfold completeMeeting
  cases out with
  | error e => rfl
  | ok so => rfl

/-- The state reached on `startMeeting`'s success path just before the first
step is spoken (lines 129-139): transcript cleared and replaced by the plan
confirmation, plan installed, cursor reset. -/
def planReadyState (st : MeetingState) (p : String) (plan : List PlanStep) : MeetingState :=
  { st with
    patientId := some p,
    status := MeetingStatus.inProgress,
    conversation := [Msg.mk Speaker.system (planOkMsg plan.length) none],
    effects := st.effects ++ [Eff.planCall p],
    planSteps := plan,
    currentStepIndex := -1,
    waitingForAnswer := false }

theorem startMeeting_ok_nil (st : MeetingState) (p : String) (fuel : Nat) :
    startMeeting st p (Except.ok []) fuel = planReadyState st p [] := rfl

theorem startMeeting_ok_cons (st : MeetingState) (p : String) (step0 : PlanStep)
    (rest : List PlanStep) (fuel : Nat) :
    startMeeting st p (Except.ok (step0 :: rest)) fuel =
      (if stepRequiresAnswer (some step0) = true then
        stepEmit (planReadyState st p (step0 :: rest)) step0
      else playNextStep (stepEmit (planReadyState st p (step0 :: rest)) step0) fuel) := rfl

theorem startMeeting_err_status (st : MeetingState) (p e : String) (fuel : Nat) :
    (startMeeting st p (Except.error e) fuel).status = MeetingStatus.notStarted := rfl

theorem playNextStep_conv_cons (fuel : Nat) (X : MeetingState) (m : Msg) (l : List Msg)
    (h : X.conversation = m :: l) : ∃ t, (playNextStep X fuel).conversation = m :: t := by
  obtain ⟨t, ht⟩ := playNextStep_conv fuel X
  refine ⟨l ++ t, ?_⟩
  rw [ht, h]
  rfl

theorem startMeeting_ok_status (st : MeetingState) (p : String) (plan : List PlanStep)
    (fuel : Nat) :
    (startMeeting st p (Except.ok plan) fuel).status = MeetingStatus.inProgress := by
  cases plan with
  | nil => rw [startMeeting_ok_nil]; rfl
  | cons step0 rest =>
    rw [startMeeting_ok_cons]
    by_cases hr : stepRequiresAnswer (some step0) = true
    · rw [if_pos hr]
      rfl
    · rw [if_neg hr, playNextStep_status]
      rfl

theorem startMeeting_err_conv (st : MeetingState) (p e : String) (fuel : Nat) :
    ∃ t, (startMeeting st p (Except.error e) fuel).conversation = st.conversation ++ t := by
  simp only [startMeeting]
  exact ⟨[Msg.mk Speaker.system genPlanMsg none,
    Msg.mk Speaker.system
      ("Error generating plan: " ++ e ++ ". Please try again or contact support.") none],
    by simp [appendMsg, pushEff, List.append_assoc]⟩

theorem startMeeting_ok_conv (st : MeetingState) (p : String) (plan : List PlanStep)
    (fuel : Nat) :
    ∃ t, (startMeeting st p (Except.ok plan) fuel).conversation =
      Msg.mk Speaker.system (planOkMsg plan.length) none :: t := by
  cases plan with
  | nil => rw [startMeeting_ok_nil]; exact ⟨[], rfl⟩
  | cons step0 rest =>
    rw [startMeeting_ok_cons]
    by_cases hr : stepRequiresAnswer (some step0) = true
    · rw [if_pos hr]
      exact ⟨[Msg.mk Speaker.bot step0.content step0.question_id], rfl⟩
    · rw [if_neg hr]
      exact playNextStep_conv_cons fuel _ _ _ rfl

theorem advanceAfterReply_eval (st : MeetingState) (fuel : Nat) (step : PlanStep)
    (h : getStep st.planSteps (st.currentStepIndex + 1) = some step) :
    advanceAfterReply st fuel =
      if stepRequiresAnswer (some step) = true then stepEmit st step
      else playNextStep (stepEmit st step) fuel := by
  have hb : ¬ (st.planSteps.length : Int) ≤ st.currentStepIndex + 1 := by
    have := getStep_bounds h
    omega
  unfold advanceAfterReply
  rw [if_neg hb, h]

theorem playNextStep_eval (st : MeetingState) (n : Nat) (step : PlanStep)
    (hA : st.isAdvancing = false) (hW : st.waitingForAnswer = false)
    (h : getStep st.planSteps (st.currentStepIndex + 1) = some step) :
    playNextStep st (n + 1) =
      if stepRequiresAnswer (some step) = true then stepEmit st step
      else playNextStep (stepEmit st step) n := by
  have hb : ¬ (st.planSteps.length : Int) ≤ st.currentStepIndex + 1 := by
    have := getStep_bounds h
    omega
  simp only [playNextStep]
  rw [hA, if_neg Bool.false_ne_true, hW, if_neg Bool.false_ne_true, if_neg hb, h]

/-- Field view of a single `follow_up_needed = true` turn. -/
theorem addMsg_followTrue_fields (st : MeetingState) (c : String) (qid : Option String)
    (r : String) (fuel : Nat)
    (h1 : st.status = MeetingStatus.inProgress) (h2 : st.isSpeaking = false)
    (h3 : st.waitingForAnswer = true) :
    (addConversationMessage st Speaker.patient c qid (some (ReactResp.mk r true)) fuel).status
        = MeetingStatus.inProgress ∧
    (addConversationMessage st Speaker.patient c qid (some (ReactResp.mk r true)) fuel).isSpeaking
        = false ∧
    (addConversationMessage st Speaker.patient c qid (some (ReactResp.mk r true)) fuel).waitingForAnswer
        = true ∧
    (addConversationMessage st Speaker.patient c qid (some (ReactResp.mk r true)) fuel).currentStepIndex
        = st.currentStepIndex := by
  rw [addMsg_followTrue st c qid r fuel h1 h2 h3]
  exact ⟨h1, h2, h3, rfl⟩

/-- Any number of consecutive `follow_up_needed = true` turns leaves the
runner cursor unchanged. -/
theorem foldl_followTrue (fuel : Nat) (l : List (String × String)) :
    ∀ st : MeetingState, st.status = MeetingStatus.inProgress → st.isSpeaking = false →
      st.waitingForAnswer = true →
      ((l.foldl (fun s p => addConversationMessage s Speaker.patient p.fst none
          (some (ReactResp.mk p.snd true)) fuel) st).currentStepIndex = st.currentStepIndex ∧
       (l.foldl (fun s p => addConversationMessage s Speaker.patient p.fst none
          (some (ReactResp.mk p.snd true)) fuel) st).waitingForAnswer = true) := by
  induction l with
  | nil => intro st _ _ h3; exact ⟨rfl, h3⟩
  | cons p t ih =>
    intro st h1 h2 h3
    obtain ⟨f1, f2, f3, f4⟩ := addMsg_followTrue_fields st p.fst none p.snd fuel h1 h2 h3
    rw [List.foldl_cons]
    obtain ⟨i1, i2⟩ := ih _ f1 f2 f3
    exact ⟨i1.trans f4, i2⟩

/-! ### Claim theorems -/

/-- A neutral concrete state used to build witnesses. -/
def baseState : MeetingState :=
  { status := MeetingStatus.notStarted, questions := [], conversation := [], summary := "",
    extractedAnswers := [], planSteps := [], currentStepIndex := -1, waitingForAnswer := false,
    isSpeaking := false, isAdvancing := false, patientId := none, effects := [] }

/-- C1: while the speaking flag is set during an in-progress meeting, a
patient message submitted through `addConversationMessage` is not processed
as input: the resulting state is exactly the old state with the message
appended to the transcript — so no extraction ran (`extractedAnswers`
unchanged), no reactive-reply call was issued (`effects` unchanged), and the
runner cursor (`currentStepIndex`, `waitingForAnswer`) is unchanged. -/
theorem c1_speaking_gate (st : MeetingState) (c : String) (qid : Option String)
    (react : Option ReactResp) (fuel : Nat)
    (h1 : st.status = MeetingStatus.inProgress) (h2 : st.isSpeaking = true) :
    addConversationMessage st Speaker.patient c qid react fuel =
      { st with conversation := st.conversation ++ [Msg.mk Speaker.patient c qid] } :=
  addMsg_speaking st c qid react fuel h1 h2

def stC1 : MeetingState :=
  { baseState with
    status := MeetingStatus.inProgress,
    isSpeaking := true,
    waitingForAnswer := true,
    currentStepIndex := 0,
    planSteps := [PlanStep.mk "Do you have your medications?" (some "question") (some "q1")],
    patientId := some "p1" }

theorem c1_speaking_gate_witness :
    addConversationMessage stC1 Speaker.patient "yes I do" none none 3 =
      { stC1 with conversation := stC1.conversation ++ [Msg.mk Speaker.patient "yes I do" none] } :=
  c1_speaking_gate stC1 "yes I do" none none 3 rfl rfl

/-- Rank of a status along the chain not-started, in-progress, completed. -/
def statusRank : MeetingStatus → Nat
  | MeetingStatus.notStarted => 0
  | MeetingStatus.inProgress => 1
  | MeetingStatus.completed => 2

def stC3 : MeetingState := baseState

/-- C3 counterexample: the claim says calling `completeMeeting` while the
status is `not-started` is a no-op leaving the status unchanged; on the
code, `completeMeeting` sets the status to `completed` unconditionally, so
from `not-started` it is not a no-op. -/
theorem c3_counterexample :
    stC3.status = MeetingStatus.notStarted ∧
    (completeMeeting stC3 "p1" (Except.error "summarizer down")).status =
      MeetingStatus.completed := by
  constructor
  · rfl
  · rfl

/-- C3 amended: `completeMeeting` unconditionally sets the status to
`completed` from any state — from `not-started` it jumps directly to
`completed` rather than being a no-op — so `completeMeeting` itself never
moves the status backward (its rank never decreases); `startMeeting` sets
`in-progress` on success, but its plan-failure path resets the status to
`not-started`, which is a back-transition when invoked from a later state;
`addConversationMessage` and `playNextStep` never change the status. -/
theorem c3_amended (st : MeetingState) (pid pid2 e : String)
    (out : Except String (String × List (String × String)))
    (plan : List PlanStep) (fuel fuel2 fuel3 : Nat) (sp : Speaker) (c : String)
    (qid : Option String) (react : Option ReactResp) :
    (completeMeeting st pid out).status = MeetingStatus.completed ∧
    statusRank st.status ≤ statusRank (completeMeeting st pid out).status ∧
    (startMeeting st pid2 (Except.ok plan) fuel).status = MeetingStatus.inProgress ∧
    (startMeeting st pid2 (Except.error e) fuel2).status = MeetingStatus.notStarted ∧
    (addConversationMessage st sp c qid react fuel3).status = st.status ∧
    (playNextStep st fuel3).status = st.status := by
  refine ⟨completeMeeting_status st pid out, ?_, startMeeting_ok_status st pid2 plan fuel,
    startMeeting_err_status st pid2 e fuel2,
    addConversationMessage_status st sp c qid react fuel3, playNextStep_status fuel3 st⟩
  rw [completeMeeting_status st pid out]
  cases h : st.status <;> simp [statusRank]

/-- C9: when an advancement is requested and the next step index
(`currentStepIndex + 1`) is at or past the end of the plan, both advancement
routines (`playNextStep` and the deferred post-reply advancement
`advanceAfterReply`) are a complete no-op — no message appended, cursor and
status unchanged; and no advancement or message operation ever changes
`MeetingStatus`, so running out of steps never completes the meeting (only
`completeMeeting` sets `completed`). -/
theorem c9_out_of_bounds_guard (st st2 : MeetingState) (fuel fuel2 : Nat) (sp : Speaker)
    (c : String) (qid : Option String) (react : Option ReactResp)
    (h : (st.planSteps.length : Int) ≤ st.currentStepIndex + 1) :
    playNextStep st fuel = st ∧
    advanceAfterReply st fuel = st ∧
    (addConversationMessage st2 sp c qid react fuel2).status = st2.status ∧
    (playNextStep st2 fuel2).status = st2.status ∧
    (advanceAfterReply st2 fuel2).status = st2.status :=
  ⟨playNextStep_oob st fuel h, advanceAfterReply_oob st fuel h,
   addConversationMessage_status st2 sp c qid react fuel2,
   playNextStep_status fuel2 st2, advanceAfterReply_status st2 fuel2⟩

def stC9 : MeetingState :=
  { baseState with
    status := MeetingStatus.inProgress,
    currentStepIndex := 0,
    planSteps := [PlanStep.mk "Welcome." (some "statement") none],
    patientId := some "p1" }

theorem c9_out_of_bounds_guard_witness :
    playNextStep stC9 5 = stC9 ∧
    advanceAfterReply stC9 5 = stC9 ∧
    (addConversationMessage stC9 Speaker.patient "hello" none none 5).status = stC9.status ∧
    (playNextStep stC9 5).status = stC9.status ∧
    (advanceAfterReply stC9 5).status = stC9.status :=
  c9_out_of_bounds_guard stC9 stC9 5 5 Speaker.patient "hello" none none (by decide)

def stmtStep : PlanStep := PlanStep.mk "Shall we continue?" (some "statement") none

def stC4 : MeetingState :=
  { baseState with
    status := MeetingStatus.inProgress,
    planSteps := [stmtStep],
    patientId := some "p1" }

/-- C4 counterexample: the claim says a step whose explicit `stepType` is
`statement` is classified as not requiring an answer even when its content
ends with `?` (the explicit type wins).  On the code the explicit type is
only consulted to force the `question` classification: for a
`statement`-typed step ending in `?` the trailing-question-mark fallback
still fires, `stepRequiresAnswer` returns `true`, and the runner enters
AwaitingAnswer. -/
theorem c4_counterexample :
    stmtStep.step_type = some "statement" ∧
    strEnds (jsTrim stmtStep.content) "?" = true ∧
    stepRequiresAnswer (some stmtStep) = true ∧
    (playNextStep stC4 1).waitingForAnswer = true := by decide

/-- C4 amended: the explicit `stepType` only forces the `question`
classification and does not override the trailing-`?` heuristic; a step is
classified as requiring an answer whenever `step_type = question` or its
trimmed content ends with `?`.  In particular, advancing onto any step whose
trimmed content ends with `?` — whatever its `step_type`, including an
explicit `statement` — makes the runner enter AwaitingAnswer at the advanced
index. -/
theorem c4_amended (st : MeetingState) (n : Nat) (step : PlanStep)
    (hA : st.isAdvancing = false) (hW : st.waitingForAnswer = false)
    (hg : getStep st.planSteps (st.currentStepIndex + 1) = some step)
    (hq : strEnds (jsTrim step.content) "?" = true) :
    stepRequiresAnswer (some step) = true ∧
    (playNextStep st (n + 1)).waitingForAnswer = true ∧
    (playNextStep st (n + 1)).currentStepIndex = st.currentStepIndex + 1 := by
  have hr : stepRequiresAnswer (some step) = true := by
    show (decide (step.step_type = some "question") || strEnds (jsTrim step.content) "?") = true
    rw [hq, Bool.or_true]
  refine ⟨hr, ?_, ?_⟩
  · rw [playNextStep_eval st n step hA hW hg, if_pos hr]
    show (if stepRequiresAnswer (some step) = true then true else st.waitingForAnswer) = true
    rw [if_pos hr]
  · rw [playNextStep_eval st n step hA hW hg, if_pos hr]
    rfl

theorem c4_amended_witness :
    stepRequiresAnswer (some stmtStep) = true ∧
    (playNextStep stC4 1).waitingForAnswer = true ∧
    (playNextStep stC4 1).currentStepIndex = stC4.currentStepIndex + 1 :=
  c4_amended stC4 0 stmtStep rfl rfl (by decide) (by decide)

def stC6 : MeetingState :=
  { baseState with conversation := [Msg.mk Speaker.patient "hello" none] }

/-- C6 counterexample: the claim says the transcript is append-only under
every operation including `startMeeting`; on the code, `startMeeting`'s
success path clears the transcript (`setConversation([])`, line 130), so a
message present before the call is gone afterwards. -/
theorem c6_counterexample :
    Msg.mk Speaker.patient "hello" none ∈ stC6.conversation ∧
    ¬ Msg.mk Speaker.patient "hello" none ∈
      (startMeeting stC6 "p1" (Except.ok []) 0).conversation := by decide

/-- C6 amended: the transcript is append-only under every operation except
`startMeeting`'s success path: `addConversationMessage`, `playNextStep`,
`advanceAfterReply` and `completeMeeting` (extraction never touches the
transcript at all), as well as `startMeeting`'s failure path, all leave the
prior transcript as a prefix of the new one; `startMeeting`'s success path
instead clears the transcript and rebuilds it starting from the
plan-confirmation system message. -/
theorem c6_amended (st : MeetingState) (sp : Speaker) (c : String) (qid : Option String)
    (react : Option ReactResp) (fuel : Nat) (pid p2 e : String)
    (out : Except String (String × List (String × String))) (plan : List PlanStep) :
    (∃ t, (addConversationMessage st sp c qid react fuel).conversation =
      st.conversation ++ t) ∧
    (∃ t, (playNextStep st fuel).conversation = st.conversation ++ t) ∧
    (∃ t, (advanceAfterReply st fuel).conversation = st.conversation ++ t) ∧
    (∃ t, (completeMeeting st pid out).conversation = st.conversation ++ t) ∧
    (∃ t, (startMeeting st p2 (Except.error e) fuel).conversation = st.conversation ++ t) ∧
    (∃ t, (startMeeting st p2 (Except.ok plan) fuel).conversation =
      Msg.mk Speaker.system (planOkMsg plan.length) none :: t) :=
  ⟨addConversationMessage_conv st sp c qid react fuel, playNextStep_conv fuel st,
   advanceAfterReply_conv st fuel, completeMeeting_conv st pid out,
   startMeeting_err_conv st p2 e fuel, startMeeting_ok_conv st p2 plan fuel⟩

/-- C2: the live Answer Extractor is write-once.  When a live extraction run
first sets `extractedAnswers[q]` (starting from unset), the stored value is
the accepted utterance and is nonempty, and any later live extraction run —
whatever its transcript, questions, patient id or utterance — leaves that
value unchanged: the first accepted utterance wins.  Only `completeMeeting`
replaces the map wholesale with the summarizer's answers. -/
theorem c2_write_once (conv : List Msg) (qs : List DischargeQuestion)
    (ea : List (String × String)) (pid : Option String) (effs : List Eff)
    (r : String) (conv2 : List Msg) (qs2 : List DischargeQuestion) (pid2 : Option String)
    (effs2 : List Eff) (r2 : String) (q w : String)
    (stX : MeetingState) (pid3 s : String) (ans : List (String × String))
    (h0 : lookupEA ea q = none)
    (h1 : lookupEA (extractAnswersFromLatestResponse conv qs ea pid effs r).fst q = some w) :
    w = r ∧ ¬ w = "" ∧
    lookupEA (extractAnswersFromLatestResponse conv2 qs2
        (extractAnswersFromLatestResponse conv qs ea pid effs r).fst pid2 effs2 r2).fst q
      = some w ∧
    (completeMeeting stX pid3 (Except.ok (s, ans))).extractedAnswers = ans := by
  unfold extractAnswersFromLatestResponse at h1 ⊢
  obtain ⟨hw, ha⟩ := extractLoop_fresh qs pid r (candidateMsgs conv) (ea, effs) q w h0 h1
  subst hw
  refine ⟨rfl, ne_empty_of_accepts ha, ?_, rfl⟩
  exact extractLoop_preserves qs2 pid2 r2 (candidateMsgs conv2) _ q w h1 (ne_empty_of_accepts ha)

def convC2 : List Msg := [Msg.mk Speaker.bot "Do you have your medications?" (some "q1")]

theorem c2_write_once_witness :
    "Yes, I have them all" = "Yes, I have them all" ∧ ¬ "Yes, I have them all" = "" ∧
    lookupEA (extractAnswersFromLatestResponse convC2 []
        (extractAnswersFromLatestResponse convC2 [] [] (some "p1") [] "Yes, I have them all").fst
        (some "p1") [] "No, that is wrong actually").fst "q1"
      = some "Yes, I have them all" ∧
    (completeMeeting baseState "p1" (Except.ok ("sum", [("q1", "final")]))).extractedAnswers =
      [("q1", "final")] :=
  c2_write_once convC2 [] [] (some "p1") [] "Yes, I have them all" convC2 [] (some "p1") []
    "No, that is wrong actually" "q1" "Yes, I have them all" baseState "p1" "sum"
    [("q1", "final")] rfl (by decide)

/-- C8: a patient utterance accepted as the answer to a pending candidate
question whose category is `follow-up` is both recorded in
`extractedAnswers` under that question's id and accompanied by an
availability-upsert effect carrying the reserved `__availability__` key
mapped to the exact utterance text. -/
theorem c8_availability_upsert (conv : List Msg) (qs : List DischargeQuestion)
    (ea : List (String × String)) (pid : Option String) (effs : List Eff)
    (r q : String) (qrec : DischargeQuestion) (p : String) (m : Msg)
    (hm : m ∈ candidateMsgs conv) (hq : m.questionId = some q)
    (h0 : lookupEA ea q = none) (ha : acceptsHeuristic r = true)
    (hfind : qs.find? (fun x => decide (x.id = q)) = some qrec)
    (hcat : qrec.category = QCategory.followUp)
    (hpid : pid = some p) (hp : ¬ p = "") :
    lookupEA (extractAnswersFromLatestResponse conv qs ea pid effs r).fst q = some r ∧
    Eff.availabilityUpsert p "__availability__" r ∈
      (extractAnswersFromLatestResponse conv qs ea pid effs r).snd := by
  have hq0 := qid_ne_empty_of_candidate hm hq
  have ht : eaTruthy ea q = false := eaTruthy_eq_false_of_none h0
  unfold extractAnswersFromLatestResponse
  exact ⟨extractLoop_writes qs pid r (candidateMsgs conv) (ea, effs) q m hm hq hq0 ht ha,
    extractLoop_upsert qs pid r (candidateMsgs conv) (ea, effs) q m qrec p hm hq hq0 ht ha
      hfind hcat hpid hp⟩

def qW8 : DischargeQuestion :=
  DischargeQuestion.mk "q6"
    "What are the best days and times for us to schedule your follow-up appointment next week?"
    QCategory.followUp false none

def convW8 : List Msg :=
  [Msg.mk Speaker.bot qW8.question (some "q6")]

theorem c8_availability_upsert_witness :
    lookupEA (extractAnswersFromLatestResponse convW8 [qW8] [] (some "p1") []
        "Tuesday and Wednesday mornings work best").fst "q6"
      = some "Tuesday and Wednesday mornings work best" ∧
    Eff.availabilityUpsert "p1" "__availability__" "Tuesday and Wednesday mornings work best" ∈
      (extractAnswersFromLatestResponse convW8 [qW8] [] (some "p1") []
        "Tuesday and Wednesday mornings work best").snd :=
  c8_availability_upsert convW8 [qW8] [] (some "p1") []
    "Tuesday and Wednesday mornings work best" "q6" qW8 "p1"
    (Msg.mk Speaker.bot qW8.question (some "q6"))
    (by decide) rfl rfl (by decide) (by decide) rfl rfl (by decide)

def convC7a : List Msg := [Msg.mk Speaker.bot "When can you come in?" (some "q1")]

def qsC7 : List DischargeQuestion :=
  [DischargeQuestion.mk "q1" "When can you come in?" QCategory.followUp false none]

def convC7b : List Msg :=
  [Msg.mk Speaker.bot "a?" (some "q1"), Msg.mk Speaker.bot "b?" (some "q2"),
   Msg.mk Speaker.bot "c?" (some "q3"), Msg.mk Speaker.bot "d?" (some "q4")]

def eaC7 : List (String × String) := [("q2", "done"), ("q3", "done"), ("q4", "done")]

/-- C7 counterexample, refuting two parts of the claim at concrete inputs.
First, the keyword set does not cover all weekday names: the utterance
`"Friday"` is offered to a pending candidate question and is not accepted
(the code's keywords are only yes/no/tuesday/wednesday/morning/afternoon,
and `"Friday"` is 6 characters, not over 20).  Second, the candidate window
is the last 3 bot messages carrying a questionId regardless of whether they
already have an extracted answer: with four bot questions of which only the
oldest (`q1`) is unanswered, the matching utterance `"yes"` assigns nothing,
because the window `[q2, q3, q4]` — not the claimed last-3-unanswered window
`[q1]` — is consulted and all its members are already answered. -/
theorem c7_counterexample :
    (extractAnswersFromLatestResponse convC7a qsC7 [] (some "p1") [] "Friday").fst = [] ∧
    acceptsHeuristic "Friday" = false ∧
    (extractAnswersFromLatestResponse convC7b qsC7 eaC7 (some "p1") [] "yes").fst = eaC7 ∧
    lookupEA eaC7 "q1" = none ∧
    acceptsHeuristic "yes" = true := by decide

/-- C7 amended: on each accepted patient utterance, the Answer Extractor's
candidates are the last 3 bot transcript messages carrying a (truthy)
questionId — regardless of whether those questions already have an extracted
answer — and a question id `q` with no previous extracted answer receives
the utterance exactly when some message in that window carries `questionId
= q` and the utterance passes the heuristic: its lowercase form contains one
of the six fixed keywords yes / no / tuesday / wednesday / morning /
afternoon (not every weekday name — e.g. `friday` is not a keyword), or its
length exceeds 20 characters. -/
theorem c7_amended (conv : List Msg) (qs : List DischargeQuestion)
    (ea : List (String × String)) (pid : Option String) (effs : List Eff)
    (r q : String) (h : lookupEA ea q = none) :
    lookupEA (extractAnswersFromLatestResponse conv qs ea pid effs r).fst q = some r ↔
      ((∃ m ∈ candidateMsgs conv, m.questionId = some q) ∧ acceptsHeuristic r = true) := by
  unfold extractAnswersFromLatestResponse
  constructor
  · intro h1
    cases ha : acceptsHeuristic r with
    | false =>
      rw [extractLoop_noaccept qs pid r (candidateMsgs conv) (ea, effs) ha] at h1
      rw [h] at h1
      cases h1
    | true =>
      refine ⟨?_, rfl⟩
      by_contra hc
      push_neg at hc
      rw [extractLoop_nowrite qs pid r (candidateMsgs conv) (ea, effs) q hc, h] at h1
      cases h1
  · rintro ⟨⟨m, hm, hq⟩, ha⟩
    exact extractLoop_writes qs pid r (candidateMsgs conv) (ea, effs) q m hm hq
      (qid_ne_empty_of_candidate hm hq) (eaTruthy_eq_false_of_none h) ha

def convW7 : List Msg := [Msg.mk Speaker.bot "Do you have your medications?" (some "q1")]

theorem c7_amended_witness :
    lookupEA (extractAnswersFromLatestResponse convW7 [] [] (some "p1") [] "yes").fst "q1"
      = some "yes" :=
  (c7_amended convW7 [] [] (some "p1") [] "yes" "q1" rfl).mpr
    ⟨⟨Msg.mk Speaker.bot "Do you have your medications?" (some "q1"), by decide, rfl⟩, by decide⟩

/-- C10: a patient message arriving while the speaking flag is set is still
appended to the transcript before the gate check: after the call it is the
transcript's last entry, and a later `completeMeeting` on that state sends a
summarize request whose transcript payload contains it (as its last entry),
even though extraction and advancement were skipped. -/
theorem c10_gated_message_in_payload (st : MeetingState) (c : String) (qid : Option String)
    (react : Option ReactResp) (fuel : Nat) (pid : String)
    (out : Except String (String × List (String × String)))
    (h1 : st.status = MeetingStatus.inProgress) (h2 : st.isSpeaking = true) :
    (addConversationMessage st Speaker.patient c qid react fuel).conversation =
      st.conversation ++ [Msg.mk Speaker.patient c qid] ∧
    (addConversationMessage st Speaker.patient c qid react fuel).conversation.getLast? =
      some (Msg.mk Speaker.patient c qid) ∧
    (completeMeeting (addConversationMessage st Speaker.patient c qid react fuel) pid
        out).effects =
      (addConversationMessage st Speaker.patient c qid react fuel).effects ++
        [Eff.summarizeCall pid (st.conversation ++ [Msg.mk Speaker.patient c qid])
          st.questions] ∧
    Msg.mk Speaker.patient c qid ∈ st.conversation ++ [Msg.mk Speaker.patient c qid] := by
  rw [addMsg_speaking st c qid react fuel h1 h2]
  refine ⟨rfl, ?_, ?_, List.mem_append_right _ (List.mem_singleton_self _)⟩
  · show (st.conversation ++ [Msg.mk Speaker.patient c qid]).getLast? = _
    rw [List.getLast?_append_cons]
    rfl
  · exact completeMeeting_effects _ pid out

def stC10 : MeetingState :=
  { baseState with
    status := MeetingStatus.inProgress,
    isSpeaking := true,
    waitingForAnswer := true,
    currentStepIndex := 0,
    planSteps := [PlanStep.mk "Do you have your medications?" (some "question") (some "q1")],
    patientId := some "p1" }

theorem c10_gated_message_in_payload_witness :
    (addConversationMessage stC10 Speaker.patient "I feel dizzy" none none 2).conversation =
      stC10.conversation ++ [Msg.mk Speaker.patient "I feel dizzy" none] ∧
    (addConversationMessage stC10 Speaker.patient "I feel dizzy" none none 2).conversation.getLast? =
      some (Msg.mk Speaker.patient "I feel dizzy" none) ∧
    (completeMeeting (addConversationMessage stC10 Speaker.patient "I feel dizzy" none none 2)
        "p1" (Except.ok ("done", []))).effects =
      (addConversationMessage stC10 Speaker.patient "I feel dizzy" none none 2).effects ++
        [Eff.summarizeCall "p1"
          (stC10.conversation ++ [Msg.mk Speaker.patient "I feel dizzy" none]) stC10.questions] ∧
    Msg.mk Speaker.patient "I feel dizzy" none ∈
      stC10.conversation ++ [Msg.mk Speaker.patient "I feel dizzy" none] :=
  c10_gated_message_in_payload stC10 "I feel dizzy" none none 2 "p1"
    (Except.ok ("done", [])) rfl rfl

theorem stepEmit_waiting (S : MeetingState) (step : PlanStep) :
    (stepEmit S step).waitingForAnswer =
      if stepRequiresAnswer (some step) = true then true else S.waitingForAnswer := rfl

theorem advance_stop (S : MeetingState) (fuel : Nat) (step : PlanStep)
    (hb : (S.planSteps.length : Int) ≤ S.currentStepIndex + 2) :
    playNextStep (stepEmit S step) fuel = stepEmit S step :=
  playNextStep_oob _ fuel (by show (S.planSteps.length : Int) ≤ S.currentStepIndex + 1 + 1; omega)

/-- C5: for an accepted patient reply to a question step (meeting
in-progress, not speaking, waiting for an answer, with a next plan step):
when the reactive-reply collaborator returns `follow_up_needed = true` the
runner speaks the reply and stays at the same `currentStepIndex` with
`waitingForAnswer` still true, and this holds for arbitrarily many
consecutive such replies (the fold); when it returns `follow_up_needed =
false`, the emitted reactive reply is the `reactiveTextOf` form whose
trailing question marks have been stripped (it never ends in `?`), the
waiting flag for the answered question is cleared, and the runner advances
to the next step: if that step requires an answer the runner ends at
`currentStepIndex + 1` awaiting it, and if it does not (and no further step
exists) the runner ends at `currentStepIndex + 1` with `waitingForAnswer`
false. -/
theorem c5_reactive_loop (st : MeetingState) (l : List (String × String)) (c r : String)
    (fuel : Nat) (step : PlanStep)
    (h1 : st.status = MeetingStatus.inProgress) (h2 : st.isSpeaking = false)
    (h3 : st.waitingForAnswer = true)
    (hg : getStep st.planSteps (st.currentStepIndex + 1) = some step) :
    ((l.foldl (fun s p => addConversationMessage s Speaker.patient p.fst none
        (some (ReactResp.mk p.snd true)) fuel) st).currentStepIndex = st.currentStepIndex ∧
     (l.foldl (fun s p => addConversationMessage s Speaker.patient p.fst none
        (some (ReactResp.mk p.snd true)) fuel) st).waitingForAnswer = true) ∧
    ((addConversationMessage st Speaker.patient c none
        (some (ReactResp.mk r true)) fuel).conversation =
      st.conversation ++ [Msg.mk Speaker.patient c none, Msg.mk Speaker.bot (jsTrim r) none] ∧
     (addConversationMessage st Speaker.patient c none
        (some (ReactResp.mk r true)) fuel).currentStepIndex = st.currentStepIndex ∧
     (addConversationMessage st Speaker.patient c none
        (some (ReactResp.mk r true)) fuel).waitingForAnswer = true) ∧
    strEnds (reactiveTextOf r) "?" = false ∧
    (stepRequiresAnswer (some step) = true →
      ((addConversationMessage st Speaker.patient c none
          (some (ReactResp.mk r false)) fuel).conversation =
        st.conversation ++ [Msg.mk Speaker.patient c none,
          Msg.mk Speaker.bot (reactiveTextOf r) none,
          Msg.mk Speaker.bot step.content step.question_id] ∧
       (addConversationMessage st Speaker.patient c none
          (some (ReactResp.mk r false)) fuel).currentStepIndex = st.currentStepIndex + 1 ∧
       (addConversationMessage st Speaker.patient c none
          (some (ReactResp.mk r false)) fuel).waitingForAnswer = true)) ∧
    (stepRequiresAnswer (some step) = false →
      (st.planSteps.length : Int) ≤ st.currentStepIndex + 2 →
      ((addConversationMessage st Speaker.patient c none
          (some (ReactResp.mk r false)) fuel).currentStepIndex = st.currentStepIndex + 1 ∧
       (addConversationMessage st Speaker.patient c none
          (some (ReactResp.mk r false)) fuel).waitingForAnswer = false)) := by
  refine ⟨foldl_followTrue fuel l st h1 h2 h3, ⟨?_, ?_, ?_⟩,
    reactiveTextOf_no_trailing_q r, ?_, ?_⟩
  · rw [addMsg_followTrue st c none r fuel h1 h2 h3, reactedState_conv, reactText_true]
  · exact (addMsg_followTrue_fields st c none r fuel h1 h2 h3).2.2.2
  · exact (addMsg_followTrue_fields st c none r fuel h1 h2 h3).2.2.1
  · intro hr
    have hgS : getStep ({ reactedState st c none (ReactResp.mk r false) with
        waitingForAnswer := false } : MeetingState).planSteps
        (({ reactedState st c none (ReactResp.mk r false) with
          waitingForAnswer := false } : MeetingState).currentStepIndex + 1) = some step := hg
    rw [addMsg_followFalse st c none r fuel h1 h2 h3,
      advanceAfterReply_eval _ fuel step hgS, if_pos hr]
    refine ⟨?_, rfl, ?_⟩
    · show (reactedState st c none (ReactResp.mk r false)).conversation ++
        [Msg.mk Speaker.bot step.content step.question_id] = _
      rw [reactedState_conv, reactText_false, List.append_assoc]
      rfl
    · rw [stepEmit_waiting, if_pos hr]
  · intro hr hb
    have hgS : getStep ({ reactedState st c none (ReactResp.mk r false) with
        waitingForAnswer := false } : MeetingState).planSteps
        (({ reactedState st c none (ReactResp.mk r false) with
          waitingForAnswer := false } : MeetingState).currentStepIndex + 1) = some step := hg
    have hbS : ((({ reactedState st c none (ReactResp.mk r false) with
        waitingForAnswer := false } : MeetingState)).planSteps.length : Int) ≤
        ({ reactedState st c none (ReactResp.mk r false) with
          waitingForAnswer := false } : MeetingState).currentStepIndex + 2 := hb
    rw [addMsg_followFalse st c none r fuel h1 h2 h3,
      advanceAfterReply_eval _ fuel step hgS,
      if_neg (fun hh => Bool.false_ne_true (hr ▸ hh)),
      advance_stop _ fuel step hbS]
    refine ⟨rfl, ?_⟩
    rw [stepEmit_waiting, hr, if_neg Bool.false_ne_true]

def stC5 : MeetingState :=
  { baseState with
    status := MeetingStatus.inProgress,
    waitingForAnswer := true,
    currentStepIndex := 0,
    planSteps := [PlanStep.mk "Do you have your medications?" (some "question") (some "q1"),
      PlanStep.mk "Any concerns about side effects?" (some "question") (some "q2")],
    patientId := some "p1" }

def stepC5 : PlanStep := PlanStep.mk "Any concerns about side effects?" (some "question") (some "q2")

theorem c5_reactive_loop_witness :
    ((([("huh", "Could you clarify?"), ("um", "Still unclear?"),
        ("hm", "One more time?")] : List (String × String)).foldl
        (fun s p => addConversationMessage s Speaker.patient p.fst none
          (some (ReactResp.mk p.snd true)) 4) stC5).currentStepIndex = stC5.currentStepIndex ∧
     (([("huh", "Could you clarify?"), ("um", "Still unclear?"),
        ("hm", "One more time?")] : List (String × String)).foldl
        (fun s p => addConversationMessage s Speaker.patient p.fst none
          (some (ReactResp.mk p.snd true)) 4) stC5).waitingForAnswer = true) ∧
    ((addConversationMessage stC5 Speaker.patient "All good" none
        (some (ReactResp.mk "Great, thanks?" false)) 4).currentStepIndex =
      stC5.currentStepIndex + 1 ∧
     (addConversationMessage stC5 Speaker.patient "All good" none
        (some (ReactResp.mk "Great, thanks?" false)) 4).waitingForAnswer = true) :=
  ⟨(c5_reactive_loop stC5 [("huh", "Could you clarify?"), ("um", "Still unclear?"),
      ("hm", "One more time?")] "All good" "Great, thanks?" 4 stepC5 rfl rfl rfl (by decide)).1,
   ((c5_reactive_loop stC5 [("huh", "Could you clarify?"), ("um", "Still unclear?"),
      ("hm", "One more time?")] "All good" "Great, thanks?" 4 stepC5 rfl rfl rfl
      (by decide)).2.2.2.1 (by decide)).2⟩
